import Mathlib

/-!
Verification of the godateparser date-interpretation engine.

The development shallowly embeds the Go package `godateparser`:
`Settings`, `DefaultSettings`, `normalizeSettings`, `isParserEnabled`,
`isSpecificError`, the dispatch loop of `ParseDate`, and the entry guard of
`ExtractDates` are translated from `godateparser.go`.  The individual
strategy parsers (`parser_timestamp.go`, `parser_absolute.go`, ...) and the
extraction engine (`extract.go`) are not part of the provided sources; they
are modelled from the specification and marked as such in their doc
comments.  Machine time (`time.Now()`) is passed in as an explicit `now`
parameter, and `time.Time` is modelled by the plain calendar record
`DateTime` (the zero `time.Time` value becomes `Option.none`).
-/

set_option maxHeartbeats 1000000

/-- A calendar instant (models the fields of Go `time.Time` that the engine
manipulates: year, month, day, hour, minute, second; timezone handling is
outside the claims considered here). -/
structure DateTime where
  year : Nat
  month : Nat
  day : Nat
  hour : Nat
  minute : Nat
  second : Nat
deriving Repr, DecidableEq

/-- `Settings` from `godateparser.go`.  Go zero values are modelled
directly: the zero `time.Time` for `RelativeBase` and the `nil` pointer for
`PreferredTimezone` become `Option.none`; timezones are identified by name. -/
structure Settings where
  DateOrder : String
  Languages : List String
  RelativeBase : Option DateTime
  EnableParsers : List String
  Strict : Bool
  PreferredTimezone : Option String
  PreferDatesFrom : String
deriving Repr, DecidableEq

/-- `ParsedDate` from `godateparser.go`.  `Confidence` (a `float64` used
only as an ordering key and carried through unchanged) is modelled as a
rational number. -/
structure ParsedDate where
  Date : DateTime
  Position : Nat
  Length : Nat
  MatchedText : String
  Confidence : Rat
deriving Repr, DecidableEq

/-- The failure taxonomy of `errors.go` (`ErrEmptyInput`,
`ErrInvalidFormat`, `ErrInvalidDate`, `ErrAmbiguousDate`,
`ErrParseFailure`).  Each constructor carries the context string the Go
errors carry. -/
inductive ParseError where
  | emptyInput : ParseError
  | invalidFormat : String → ParseError
  | invalidDate : String → ParseError
  | ambiguousDate : String → ParseError
  | parseFailure : String → ParseError
deriving Repr, DecidableEq

/-- `DefaultSettings` from `godateparser.go`. -/
def DefaultSettings : Settings :=
  { DateOrder := "MDY"
    Languages := ["en"]
    RelativeBase := none
    EnableParsers := ["timestamp", "relative", "absolute", "timezone", "time", "incomplete", "ordinal", "week"]
    Strict := false
    PreferredTimezone := some "UTC"
    PreferDatesFrom := "future" }

/-- `normalizeSettings` from `godateparser.go`: copy the user settings,
then fill each unset field with its documented default.  The Go code calls
`time.Now()` for a zero `RelativeBase`; the ambient clock is the explicit
`now` argument here. -/
def normalizeSettings (opts : Settings) (now : DateTime) : Settings :=
  let settings : Settings :=
    { DateOrder := opts.DateOrder
      Languages := opts.Languages
      RelativeBase := opts.RelativeBase
      EnableParsers := opts.EnableParsers
      Strict := opts.Strict
      PreferredTimezone := opts.PreferredTimezone
      PreferDatesFrom := opts.PreferDatesFrom }
  let settings := if settings.DateOrder = "" then { settings with DateOrder := "MDY" } else settings
  let settings := if settings.Languages.length = 0 then { settings with Languages := ["en"] } else settings
  let settings := if settings.RelativeBase.isNone then { settings with RelativeBase := some now } else settings
  let settings := if settings.EnableParsers.length = 0 then { settings with EnableParsers := ["timestamp", "relative", "absolute", "timezone", "time", "incomplete", "ordinal", "week"] } else settings
  let settings := if settings.PreferredTimezone.isNone then { settings with PreferredTimezone := some "UTC" } else settings
  let settings := if settings.PreferDatesFrom = "" then { settings with PreferDatesFrom := "future" } else settings
  settings

/-- `isParserEnabled` from `godateparser.go`: linear scan of
`EnableParsers` for an exact string match. -/
def isParserEnabled (settings : Settings) (parserName : String) : Bool :=
  settings.EnableParsers.contains parserName

/-- `isSpecificError` from `godateparser.go`: an error short-circuits the
dispatch chain exactly when it is `ErrAmbiguousDate` or `ErrInvalidDate`. -/
def isSpecificError (err : ParseError) : Bool :=
  match err with
  | .ambiguousDate _ => true
  | .invalidDate _ => true
  | _ => false

/-- `parserContext` from `godateparser.go`.  The loaded translations
(`GlobalRegistry.GetMultiple`) are modelled by the list of language codes. -/
structure ParserContext where
  input : String
  settings : Settings
  autoDetectDateOrder : Bool
  languages : List String
deriving Repr

/-- The seven strategy parsers `ParseDate` dispatches to.  Their sources
are not under `src/`, so `ParseDate` is stated over an arbitrary bundle;
`repoParsers` below instantiates it with spec-modelled implementations. -/
structure Parsers where
  parseTimestamp : ParserContext → Except ParseError DateTime
  parseAbsolute : ParserContext → Except ParseError DateTime
  parseRelative : ParserContext → Except ParseError DateTime
  tryParseTime : ParserContext → Except ParseError DateTime
  tryParseIncompleteDate : ParserContext → Except ParseError DateTime
  tryParseOrdinalDate : ParserContext → Except ParseError DateTime
  tryParseWeekNumber : ParserContext → Except ParseError DateTime

/-- The fixed priority order of the seven dispatch blocks in `ParseDate`
(`godateparser.go` lines 109-198). -/
def parserOrder : List String :=
  ["timestamp", "absolute", "relative", "time", "incomplete", "ordinal", "week"]

/-- Select the parser a dispatch block calls by its `EnableParsers` name. -/
def runNamed (ps : Parsers) (name : String) (ctx : ParserContext) : Except ParseError DateTime :=
  if name = "timestamp" then ps.parseTimestamp ctx
  else if name = "absolute" then ps.parseAbsolute ctx
  else if name = "relative" then ps.parseRelative ctx
  else if name = "time" then ps.tryParseTime ctx
  else if name = "incomplete" then ps.tryParseIncompleteDate ctx
  else if name = "ordinal" then ps.tryParseOrdinalDate ctx
  else ps.tryParseWeekNumber ctx

/-- The body of `ParseDate` after the empty-input guard: the source writes
seven textually identical blocks (enabled check, run, return on success,
return on specific error, append to `parseErrors` otherwise) followed by a
final `newInvalidFormatError`; this folds those blocks over `parserOrder`.
Both final branches of the source return the invalid-format error, so the
accumulated `parseErrors` list (kept here for fidelity) never changes the
result. -/
def dispatch (ps : Parsers) (ctx : ParserContext) :
    List String → List ParseError → Except ParseError DateTime
  | [], parseErrors =>
    if parseErrors.length > 0 then .error (.invalidFormat ctx.input)
    else .error (.invalidFormat ctx.input)
  | name :: rest, parseErrors =>
    if isParserEnabled ctx.settings name then
      match runNamed ps name ctx with
      | .ok result => .ok result
      | .error err =>
        if isSpecificError err then .error err
        else dispatch ps ctx rest (parseErrors ++ [err])
    else dispatch ps ctx rest parseErrors

/-- `ParseDate` from `godateparser.go`: empty-input guard, `nil` settings
fallback, auto-detect flag, normalization, context construction, then the
dispatch chain. -/
def ParseDate (ps : Parsers) (input : String) (opts : Option Settings) (now : DateTime) :
    Except ParseError DateTime :=
  if input = "" then .error .emptyInput
  else
    let opts := opts.getD DefaultSettings
    let autoDetect := opts.DateOrder = ""
    let settings := normalizeSettings opts now
    let ctx : ParserContext :=
      { input := input
        settings := settings
        autoDetectDateOrder := autoDetect
        languages := settings.Languages }
    dispatch ps ctx parserOrder []

/-! ## Calendar arithmetic

Pure helpers used by the strategy parsers (spec section 4.4: leap years,
days-in-month, validity).  `validation.go` is not under `src/`; these
follow the documented rules (divisible by 4, not by 100 unless by 400;
month 1-12; day valid for month and leap year). -/

/-- Character is an ASCII decimal digit. -/
def isDigitChar (c : Char) : Bool :=
  decide ('0' ≤ c ∧ c ≤ '9')

/-- Numeric value of an ASCII digit. -/
def digitVal (c : Char) : Nat :=
  c.toNat - '0'.toNat

/-- Decimal value of a digit run. -/
def digitsToNat (l : List Char) : Nat :=
  l.foldl (fun acc c => 10 * acc + digitVal c) 0

/-- Leap-year rule: divisible by 4, not by 100 unless by 400. -/
def isLeapYear (y : Nat) : Bool :=
  decide (y % 4 = 0 ∧ (y % 100 ≠ 0 ∨ y % 400 = 0))

/-- Days in a month, adjusted for leap years; 0 for an out-of-range month. -/
def daysInMonth (y m : Nat) : Nat :=
  match m with
  | 1 => 31
  | 2 => if isLeapYear y then 29 else 28
  | 3 => 31
  | 4 => 30
  | 5 => 31
  | 6 => 30
  | 7 => 31
  | 8 => 31
  | 9 => 30
  | 10 => 31
  | 11 => 30
  | 12 => 31
  | _ => 0

/-- A month/day pair is a valid calendar date in the given year. -/
def validDate (y m d : Nat) : Bool :=
  decide (1 ≤ m ∧ m ≤ 12 ∧ 1 ≤ d ∧ d ≤ daysInMonth y m)

/-- Two-digit year window documented in the CHANGELOG and spec section 4.2:
00-69 resolve to 2000-2069, 70-99 to 1970-1999. -/
def resolveTwoDigitYear (y : Nat) : Nat :=
  if y ≤ 69 then 2000 + y else 1900 + y

/-- 366 for leap years, 365 otherwise. -/
def daysInYear (y : Nat) : Nat :=
  if isLeapYear y then 366 else 365

/-- Step one calendar day back, keeping the time of day. -/
def prevDay (t : DateTime) : DateTime :=
  if t.day > 1 then { t with day := t.day - 1 }
  else if t.month > 1 then { t with month := t.month - 1, day := daysInMonth t.year (t.month - 1) }
  else { t with year := t.year - 1, month := 12, day := 31 }

/-- Step one calendar day forward, keeping the time of day. -/
def nextDay (t : DateTime) : DateTime :=
  if t.day < daysInMonth t.year t.month then { t with day := t.day + 1 }
  else if t.month < 12 then { t with month := t.month + 1, day := 1 }
  else { t with year := t.year + 1, month := 1, day := 1 }

/-- Iterate `nextDay`. -/
def addDays : Nat → DateTime → DateTime
  | 0, t => t
  | n + 1, t => addDays n (nextDay t)

/-- Iterate `prevDay`. -/
def subDays : Nat → DateTime → DateTime
  | 0, t => t
  | n + 1, t => subDays n (prevDay t)

/-- Days from the start of the year to the start of month `m` (fuelled by
the month index itself). -/
def daysBeforeMonth (y : Nat) : Nat → Nat
  | 0 => 0
  | m + 1 => if m = 0 then 0 else daysInMonth y m + daysBeforeMonth y m

/-- Days from 1970-01-01 to the start of year `y` (0 for years before
1970; the first argument is recursion fuel). -/
def daysBeforeYear : Nat → Nat → Nat
  | 0, _ => 0
  | fuel + 1, y => if y ≤ 1970 then 0 else daysInYear (y - 1) + daysBeforeYear fuel (y - 1)

/-- Days from 1970-01-01 to the given date. -/
def daysFromCivil (t : DateTime) : Nat :=
  daysBeforeYear t.year t.year + daysBeforeMonth t.year t.month + (t.day - 1)

/-- ISO weekday, 1 = Monday .. 7 = Sunday (1970-01-01 was a Thursday). -/
def weekdayOf (t : DateTime) : Nat :=
  (daysFromCivil t + 3) % 7 + 1

/-- Find the year containing day `d` counted from Jan 1 of year `y`
(fuelled); returns the year and the remaining day-of-year. -/
def yearFromDays : Nat → Nat → Nat → Nat × Nat
  | 0, y, d => (y, d)
  | fuel + 1, y, d =>
    if d < daysInYear y then (y, d) else yearFromDays fuel (y + 1) (d - daysInYear y)

/-- Split a 0-based day-of-year into month and 1-based day (fuelled by 12). -/
def monthFromDayOfYear (y : Nat) : Nat → Nat → Nat → Nat × Nat
  | 0, m, d => (m, d + 1)
  | fuel + 1, m, d =>
    if d < daysInMonth y m then (m, d + 1) else monthFromDayOfYear y fuel (m + 1) (d - daysInMonth y m)

/-- Convert a Unix epoch second count to a calendar instant. -/
def epochToDateTime (secs : Nat) : DateTime :=
  let days := secs / 86400
  let rem := secs % 86400
  let yd := yearFromDays (days + 1) 1970 days
  let md := monthFromDayOfYear yd.1 12 1 yd.2
  { year := yd.1, month := md.1, day := md.2, hour := rem / 3600, minute := rem % 3600 / 60, second := rem % 60 }

/-- Monday starting ISO week `w` of year `y`: Jan 4 is always in week 1;
step back to its Monday and advance whole weeks. -/
def isoWeekStart (y w : Nat) : DateTime :=
  let jan4 : DateTime := { year := y, month := 1, day := 4, hour := 0, minute := 0, second := 0 }
  addDays (7 * (w - 1)) (subDays (weekdayOf jan4 - 1) jan4)

/-! ## Spec-modelled strategy parsers

The parser source files (`parser_timestamp.go`, `parser_absolute.go`,
`parser_relative.go`, `parser_time.go`, `parser_incomplete.go`,
`parser_ordinal.go`, `parser_week.go`) are not under `src/`; the
definitions below are modelled from the specification (sections 4.2, 4.3,
4.4 and the README format tables) and cover the syntactic families the
claims exercise. -/

/-- Split a character list into its leading digit run and the rest. -/
def spanDigits : List Char → List Char × List Char
  | [] => ([], [])
  | c :: cs =>
    if isDigitChar c then
      let r := spanDigits cs
      (c :: r.1, r.2)
    else ([], c :: cs)

/-- Recognize the exact ISO-8601 shape `YYYY-MM-DD` and decode its
components. -/
def isoShape : List Char → Option (Nat × Nat × Nat)
  | [y1, y2, y3, y4, s1, m1, m2, s2, d1, d2] =>
    if s1 = '-' ∧ s2 = '-' ∧ isDigitChar y1 ∧ isDigitChar y2 ∧ isDigitChar y3 ∧ isDigitChar y4 ∧
        isDigitChar m1 ∧ isDigitChar m2 ∧ isDigitChar d1 ∧ isDigitChar d2 then
      some (digitsToNat [y1, y2, y3, y4], digitsToNat [m1, m2], digitsToNat [d1, d2])
    else none
  | _ => none

/-- Recognize `N sep N sep N` with a consistent separator `/` or `-`,
returning the three numbers and the digit count of the third. -/
def parseNumericTriple (l : List Char) : Option (Nat × Nat × Nat × Nat) :=
  let s1 := spanDigits l
  match s1.2 with
  | sep1 :: rest1 =>
    if sep1 = '/' ∨ sep1 = '-' then
      let s2 := spanDigits rest1
      match s2.2 with
      | sep2 :: rest2 =>
        if sep2 = sep1 then
          let s3 := spanDigits rest2
          if s1.1 ≠ [] ∧ s2.1 ≠ [] ∧ s3.1 ≠ [] ∧ s3.2 = [] then
            some (digitsToNat s1.1, digitsToNat s2.1, digitsToNat s3.1, s3.1.length)
          else none
        else none
      | [] => none
    else none
  | [] => none

/-- Validate and assemble a resolved (year, month, day) triple at
midnight; calendar-impossible components raise the typed invalid-date
failure, never a generic one (spec section 4.4). -/
def assembleDate (year month day : Nat) (input : String) : Except ParseError DateTime :=
  if validDate year month day then .ok { year := year, month := month, day := day, hour := 0, minute := 0, second := 0 }
  else .error (.invalidDate input)

/-- Assign the first two numeric components per the configured component
order: DMY reads day then month, every other configured value reads month
then day (MDY is the normalized default). -/
def assignByOrder (dateOrder : String) (year a b : Nat) (input : String) : Except ParseError DateTime :=
  if dateOrder = "DMY" then assembleDate year b a input else assembleDate year a b input

/-- Modelled from the spec: the numeric-date disambiguation of
`parser_absolute.go` (spec section 4.3).  Auto-detection fires only when
the user left the order preference unset: a first component over 12 forces
day-month-year, a second component over 12 forces month-day-year;
otherwise, in strict mode, two calendar-valid role assignments raise the
ambiguous-date failure, and in non-strict mode the normalized order
preference decides. -/
def disambiguateNumeric (autoDetect : Bool) (dateOrder : String) (strict : Bool)
    (year a b : Nat) (input : String) : Except ParseError DateTime :=
  if autoDetect then
    if a > 12 then assembleDate year b a input
    else if b > 12 then assembleDate year a b input
    else if strict && validDate year a b && validDate year b a then .error (.ambiguousDate input)
    else assignByOrder dateOrder year a b input
  else assignByOrder dateOrder year a b input

/-- Modelled from the spec: `parseAbsolute` of `parser_absolute.go`,
restricted to the numeric families the claims exercise.  An explicit
`YYYY-MM-DD` shape is read as ISO-8601 (year month day) without consulting
the order preference; other `N sep N sep N` shapes go through numeric
disambiguation, with a third component of at most two digits mapped
through the two-digit-year window.  Month-name and timezone formats are
omitted (their vocabulary lives in the external lexical tables). -/
def parseAbsoluteCore (input : String) (chars : List Char) (autoDetect : Bool)
    (dateOrder : String) (strict : Bool) : Except ParseError DateTime :=
  match isoShape chars with
  | some (y, m, d) => assembleDate y m d input
  | none =>
    match parseNumericTriple chars with
    | some (a, b, c, cDigits) =>
      let year := if cDigits ≤ 2 then resolveTwoDigitYear c else c
      disambiguateNumeric autoDetect dateOrder strict year a b input
    | none => .error (.parseFailure input)

/-- The context wrapper of `parseAbsoluteCore`: the parser reads only the
input text, the auto-detect flag, the order preference and strictness. -/
def parseAbsolute (ctx : ParserContext) : Except ParseError DateTime :=
  parseAbsoluteCore ctx.input ctx.input.data ctx.autoDetectDateOrder ctx.settings.DateOrder
    ctx.settings.Strict

/-- Modelled from the spec: `parseTimestamp` of `parser_timestamp.go`.
Unix timestamps are all-digit strings, 10 digits for seconds and 13 for
milliseconds; anything else is a generic non-match. -/
def parseTimestampCore (input : String) (l : List Char) : Except ParseError DateTime :=
  if l ≠ [] ∧ l.all isDigitChar ∧ (l.length = 10 ∨ l.length = 13) then
    let secs := if l.length = 13 then digitsToNat l / 1000 else digitsToNat l
    .ok (epochToDateTime secs)
  else .error (.parseFailure input)

/-- The context wrapper of `parseTimestampCore`: the parser reads only the
input text. -/
def parseTimestamp (ctx : ParserContext) : Except ParseError DateTime :=
  parseTimestampCore ctx.input ctx.input.data

/-- Modelled from the spec: `parseRelative` of `parser_relative.go`,
restricted to the simple English relative terms the claims exercise
(yesterday, today, tomorrow), resolved against the normalized base
instant. -/
def parseRelative (ctx : ParserContext) : Except ParseError DateTime :=
  match ctx.settings.RelativeBase with
  | none => .error (.parseFailure ctx.input)
  | some base =>
    if ctx.languages.contains "en" then
      if ctx.input = "yesterday" then .ok (prevDay base)
      else if ctx.input = "today" then .ok base
      else if ctx.input = "tomorrow" then .ok (nextDay base)
      else .error (.parseFailure ctx.input)
    else .error (.parseFailure ctx.input)

/-- Modelled from the spec: `tryParseTime` of `parser_time.go`, restricted
to `noon`, `midnight` and the 24-hour `HH:MM` shape on the base date. -/
def tryParseTime (ctx : ParserContext) : Except ParseError DateTime :=
  match ctx.settings.RelativeBase with
  | none => .error (.parseFailure ctx.input)
  | some base =>
    if ctx.input = "noon" then .ok { base with hour := 12, minute := 0, second := 0 }
    else if ctx.input = "midnight" then .ok { base with hour := 0, minute := 0, second := 0 }
    else
      match ctx.input.data with
      | [h1, h2, c, m1, m2] =>
        if c = ':' ∧ isDigitChar h1 ∧ isDigitChar h2 ∧ isDigitChar m1 ∧ isDigitChar m2 then
          let h := digitVal h1 * 10 + digitVal h2
          let mi := digitVal m1 * 10 + digitVal m2
          if h ≤ 23 ∧ mi ≤ 59 then .ok { base with hour := h, minute := mi, second := 0 }
          else .error (.invalidDate ctx.input)
        else .error (.parseFailure ctx.input)
      | _ => .error (.parseFailure ctx.input)

/-- Modelled from the spec: `tryParseIncompleteDate` of
`parser_incomplete.go`, restricted to the year-only family (a bare 4-digit
number resolves to January 1 of that year); month-name families depend on
the external lexical tables and are omitted. -/
def tryParseIncompleteDate (ctx : ParserContext) : Except ParseError DateTime :=
  match ctx.input.data with
  | [a, b, c, d] =>
    if isDigitChar a ∧ isDigitChar b ∧ isDigitChar c ∧ isDigitChar d then
      .ok { year := digitsToNat [a, b, c, d], month := 1, day := 1, hour := 0, minute := 0, second := 0 }
    else .error (.parseFailure ctx.input)
  | _ => .error (.parseFailure ctx.input)

/-- Modelled from the spec: `tryParseOrdinalDate` of `parser_ordinal.go`,
restricted to a bare ordinal day (`1st`, `23rd`, ...) resolved in the base
month; an out-of-range day raises the typed invalid-date failure. -/
def tryParseOrdinalDate (ctx : ParserContext) : Except ParseError DateTime :=
  let s := spanDigits ctx.input.data
  if s.1 ≠ [] ∧ (s.2 = ['s', 't'] ∨ s.2 = ['n', 'd'] ∨ s.2 = ['r', 'd'] ∨ s.2 = ['t', 'h']) then
    match ctx.settings.RelativeBase with
    | none => .error (.parseFailure ctx.input)
    | some base =>
      assembleDate base.year base.month (digitsToNat s.1) ctx.input
  else .error (.parseFailure ctx.input)

/-- Modelled from the spec: `tryParseWeekNumber` of `parser_week.go`,
restricted to the `YYYY-Www` shape; weeks outside 1-53 raise the typed
invalid-date failure, and a valid week resolves to its Monday. -/
def tryParseWeekNumber (ctx : ParserContext) : Except ParseError DateTime :=
  match ctx.input.data with
  | [y1, y2, y3, y4, s1, w, w1, w2] =>
    if s1 = '-' ∧ w = 'W' ∧ isDigitChar y1 ∧ isDigitChar y2 ∧ isDigitChar y3 ∧ isDigitChar y4 ∧
        isDigitChar w1 ∧ isDigitChar w2 then
      let y := digitsToNat [y1, y2, y3, y4]
      let wk := digitsToNat [w1, w2]
      if 1 ≤ wk ∧ wk ≤ 53 then .ok (isoWeekStart y wk)
      else .error (.invalidDate ctx.input)
    else .error (.parseFailure ctx.input)
  | _ => .error (.parseFailure ctx.input)

/-- The bundle `ParseDate` is wired to in the repository, with the parser
bodies spec-modelled as above. -/
def repoParsers : Parsers :=
  { parseTimestamp := parseTimestamp
    parseAbsolute := parseAbsolute
    parseRelative := parseRelative
    tryParseTime := tryParseTime
    tryParseIncompleteDate := tryParseIncompleteDate
    tryParseOrdinalDate := tryParseOrdinalDate
    tryParseWeekNumber := tryParseWeekNumber }

/-! ## Spec-modelled extraction engine (spec section 4.5) -/

/-- The half-open spans of two matches have empty intersection. -/
def spanDisjoint (a b : ParsedDate) : Prop :=
  a.Position + a.Length ≤ b.Position ∨ b.Position + b.Length ≤ a.Position

instance : DecidableRel spanDisjoint := fun a b => by
  unfold spanDisjoint; infer_instance

/-- Boolean overlap test between two candidate spans. -/
def overlapsB (a b : ParsedDate) : Bool :=
  decide (b.Position < a.Position + a.Length ∧ a.Position < b.Position + b.Length)

/-- Candidate priority for overlap resolution: descending match length,
then descending confidence, then ascending start offset. -/
def candBefore (a b : ParsedDate) : Prop :=
  b.Length < a.Length ∨
    (a.Length = b.Length ∧
      (b.Confidence < a.Confidence ∨ (a.Confidence = b.Confidence ∧ a.Position ≤ b.Position)))

instance : DecidableRel candBefore := fun a b => by
  unfold candBefore; infer_instance

/-- Final emission order: ascending start offset. -/
def startLE (a b : ParsedDate) : Prop :=
  a.Position ≤ b.Position

instance : DecidableRel startLE := fun a b => by
  unfold startLE; infer_instance

instance : IsTotal ParsedDate startLE :=
  ⟨fun a b => Nat.le_total a.Position b.Position⟩

instance : IsTrans ParsedDate startLE :=
  ⟨fun _ _ _ h1 h2 => Nat.le_trans h1 h2⟩

/-- Greedily accept each candidate whose span overlaps no already-accepted
span; overlapping candidates are discarded entirely. -/
def greedyAccept : List ParsedDate → List ParsedDate → List ParsedDate
  | [], acc => acc
  | c :: rest, acc =>
    if acc.any (fun a => overlapsB a c) then greedyAccept rest acc
    else greedyAccept rest (acc ++ [c])

/-- Modelled from the spec: overlap resolution of the extraction engine
(`extract.go` is not under `src/`): sort candidates by descending length,
descending confidence, ascending start; greedily accept non-overlapping
spans; emit in ascending start order. -/
def resolveOverlaps (cands : List ParsedDate) : List ParsedDate :=
  List.insertionSort startLE (greedyAccept (List.insertionSort candBefore cands) [])

/-- Modelled from the spec: `extractAllDates` of `extract.go`.  Per-offset
candidate generation (the heuristic pre-filter plus partial-consumption
parser calls) is abstracted as `gen`; every per-offset failure is a
non-match, so extraction itself always succeeds. -/
def extractAllDates (gen : ParserContext → List ParsedDate) (ctx : ParserContext) :
    Except ParseError (List ParsedDate) :=
  .ok (resolveOverlaps (gen ctx))

/-- `ExtractDates` from `godateparser.go`: empty-input guard, `nil`
settings fallback, auto-detect flag, normalization, context construction,
then the extraction engine. -/
def ExtractDates (gen : ParserContext → List ParsedDate) (text : String) (opts : Option Settings)
    (now : DateTime) : Except ParseError (List ParsedDate) :=
  if text = "" then .error .emptyInput
  else
    let opts := opts.getD DefaultSettings
    let autoDetect := opts.DateOrder = ""
    let settings := normalizeSettings opts now
    let ctx : ParserContext :=
      { input := text
        settings := settings
        autoDetectDateOrder := autoDetect
        languages := settings.Languages }
    extractAllDates gen ctx

/-! ## Dispatch lemmas -/

/-- Parser outcomes support decidable equality (used to evaluate the
embedding on concrete inputs). -/
instance : DecidableEq (Except ParseError DateTime) := fun a b =>
  match a, b with
  | .ok x, .ok y => decidable_of_iff (x = y) (by simp)
  | .error x, .error y => decidable_of_iff (x = y) (by simp)
  | .ok _, .error _ => isFalse (by simp)
  | .error _, .ok _ => isFalse (by simp)

/-- Extraction outcomes support decidable equality as well. -/
instance : DecidableEq (Except ParseError (List ParsedDate)) := fun a b =>
  match a, b with
  | .ok x, .ok y => decidable_of_iff (x = y) (by simp)
  | .error x, .error y => decidable_of_iff (x = y) (by simp)
  | .ok _, .error _ => isFalse (by simp)
  | .error _, .ok _ => isFalse (by simp)

/-- A parser outcome the dispatch chain swallows: an error that is not one
of the specific types. -/
def isGenericFailure : Except ParseError DateTime → Bool
  | .error e => !isSpecificError e
  | .ok _ => false

/-- The parser context `ParseDate` builds for a non-empty input and
explicitly supplied settings. -/
def mkCtx (input : String) (opts : Settings) (now : DateTime) : ParserContext :=
  { input := input
    settings := normalizeSettings opts now
    autoDetectDateOrder := opts.DateOrder = ""
    languages := (normalizeSettings opts now).Languages }

theorem parseDate_eq_dispatch (ps : Parsers) (input : String) (opts : Settings) (now : DateTime)
    (hne : input ≠ "") :
    ParseDate ps input (some opts) now = dispatch ps (mkCtx input opts now) parserOrder [] := by
  simp only [ParseDate, mkCtx, if_neg hne]
  rfl

theorem dispatch_skip_generic_names (ps : Parsers) (ctx : ParserContext)
    (pre rest : List String) :
    ∀ errs : List ParseError,
      (∀ n ∈ pre, isParserEnabled ctx.settings n = true →
        isGenericFailure (runNamed ps n ctx) = true) →
      ∃ errs2, dispatch ps ctx (pre ++ rest) errs = dispatch ps ctx rest errs2 := by
  induction pre with
  | nil => exact fun errs _ => ⟨errs, rfl⟩
  | cons n pre ih =>
    intro errs hpre
    by_cases h : isParserEnabled ctx.settings n = true
    · have hgen := hpre n (List.mem_cons_self n pre) h
      cases hrun : runNamed ps n ctx with
      | ok r => rw [hrun] at hgen; simp [isGenericFailure] at hgen
      | error e =>
        rw [hrun] at hgen
        have hspec : isSpecificError e = false := by
          simpa [isGenericFailure] using hgen
        have step : dispatch ps ctx ((n :: pre) ++ rest) errs
            = dispatch ps ctx (pre ++ rest) (errs ++ [e]) := by
          simp [dispatch, h, hrun, hspec]
        rw [step]
        exact ih (errs ++ [e]) (fun m hm => hpre m (List.mem_cons_of_mem _ hm))
    · have step : dispatch ps ctx ((n :: pre) ++ rest) errs
          = dispatch ps ctx (pre ++ rest) errs := by
        simp [dispatch, h]
      rw [step]
      exact ih errs (fun m hm => hpre m (List.mem_cons_of_mem _ hm))

theorem dispatch_ok_after_generic_skips (ps : Parsers) (ctx : ParserContext) (t : DateTime) (name : String)
    (suf pre : List String) (errs : List ParseError)
    (hpre : ∀ n ∈ pre, isParserEnabled ctx.settings n = true →
      isGenericFailure (runNamed ps n ctx) = true)
    (hen : isParserEnabled ctx.settings name = true)
    (hok : runNamed ps name ctx = .ok t) :
    dispatch ps ctx (pre ++ name :: suf) errs = .ok t := by
  obtain ⟨errs2, hskip⟩ := dispatch_skip_generic_names ps ctx pre (name :: suf) errs hpre
  rw [hskip]
  simp [dispatch, hen, hok]

theorem dispatch_error_after_generic_skips (ps : Parsers) (ctx : ParserContext) (e : ParseError)
    (name : String) (suf pre : List String) (errs : List ParseError)
    (hpre : ∀ n ∈ pre, isParserEnabled ctx.settings n = true →
      isGenericFailure (runNamed ps n ctx) = true)
    (hen : isParserEnabled ctx.settings name = true)
    (herr : runNamed ps name ctx = .error e)
    (hspec : isSpecificError e = true) :
    dispatch ps ctx (pre ++ name :: suf) errs = .error e := by
  obtain ⟨errs2, hskip⟩ := dispatch_skip_generic_names ps ctx pre (name :: suf) errs hpre
  rw [hskip]
  simp [dispatch, hen, herr, hspec]

theorem dispatch_invalidFormat (ps : Parsers) (ctx : ParserContext) (names : List String) :
    ∀ errs : List ParseError,
      (∀ n ∈ names, isParserEnabled ctx.settings n = true →
        isGenericFailure (runNamed ps n ctx) = true) →
      dispatch ps ctx names errs = .error (.invalidFormat ctx.input) := by
  intro errs hall
  obtain ⟨errs2, hskip⟩ := dispatch_skip_generic_names ps ctx names [] errs hall
  rw [List.append_nil] at hskip
  rw [hskip]
  by_cases h : errs2.length > 0 <;> simp [dispatch, h]

/-! ## Claim C1 -/

/-- C1: for every non-empty input and every settings value, `ParseDate`
tries the enabled strategy parsers in the fixed priority order
`parserOrder` (timestamp, absolute, relative, clock time, incomplete,
ordinal, week-date), skipping parsers not in `EnableParsers`, and returns
the result of the first parser that succeeds without invoking any later
parser: the result is unchanged for any bundle `psOther` that agrees with
`ps` on the parsers up to and including the succeeding one, with the later
parsers completely unconstrained. -/
theorem parseDate_first_success_in_order
    (ps psOther : Parsers) (input : String) (opts : Settings) (now : DateTime)
    (pre suf : List String) (name : String) (t : DateTime)
    (hne : input ≠ "")
    (horder : parserOrder = pre ++ name :: suf)
    (hpre : ∀ n ∈ pre, isParserEnabled (normalizeSettings opts now) n = true →
      isGenericFailure (runNamed ps n (mkCtx input opts now)) = true)
    (hen : isParserEnabled (normalizeSettings opts now) name = true)
    (hok : runNamed ps name (mkCtx input opts now) = .ok t)
    (hagree : ∀ n ∈ pre ++ [name],
      runNamed psOther n (mkCtx input opts now) = runNamed ps n (mkCtx input opts now)) :
    ParseDate ps input (some opts) now = .ok t ∧
    ParseDate psOther input (some opts) now = .ok t := by
  constructor
  · rw [parseDate_eq_dispatch ps input opts now hne, horder]
    exact dispatch_ok_after_generic_skips ps (mkCtx input opts now) t name suf pre [] hpre hen hok
  · rw [parseDate_eq_dispatch psOther input opts now hne, horder]
    refine dispatch_ok_after_generic_skips psOther (mkCtx input opts now) t name suf pre [] ?_ hen ?_
    · intro n hn henn
      rw [hagree n (List.mem_append_left _ hn)]
      exact hpre n hn henn
    · rw [hagree name (List.mem_append_right _ (List.mem_singleton.mpr rfl))]
      exact hok

/-- Shared concrete base instant used by the concrete instantiations. -/
def baseNow : DateTime :=
  { year := 2024, month := 6, day := 15, hour := 12, minute := 0, second := 0 }

/-- A bundle that agrees with `repoParsers` on the first two parsers and
differs arbitrarily on every later one. -/
def altLaterParsers : Parsers :=
  { repoParsers with
    parseRelative := fun _ => .ok baseNow
    tryParseTime := fun _ => .error .emptyInput
    tryParseIncompleteDate := fun _ => .ok baseNow
    tryParseOrdinalDate := fun _ => .error (.invalidDate "later")
    tryParseWeekNumber := fun _ => .ok baseNow }

/-- Witness for C1 at input `2024-12-31` with the default settings: the
timestamp parser fails generically, the absolute parser succeeds, and
replacing every later parser leaves the result unchanged. -/
theorem parseDate_first_success_in_order_witness :
    ParseDate repoParsers "2024-12-31" (some DefaultSettings) baseNow
      = .ok { year := 2024, month := 12, day := 31, hour := 0, minute := 0, second := 0 } ∧
    ParseDate altLaterParsers "2024-12-31" (some DefaultSettings) baseNow
      = .ok { year := 2024, month := 12, day := 31, hour := 0, minute := 0, second := 0 } :=
  parseDate_first_success_in_order repoParsers altLaterParsers "2024-12-31" DefaultSettings baseNow
    ["timestamp"] ["relative", "time", "incomplete", "ordinal", "week"] "absolute"
    { year := 2024, month := 12, day := 31, hour := 0, minute := 0, second := 0 }
    (by decide) (by decide) (by decide) (by decide) (by decide) (by decide)

/-! ## Claim C2 (corrected) -/

/-- A bundle whose first parser raises the empty-input failure and whose
second succeeds, exhibiting that a parser-raised empty-input error does
not short-circuit the dispatch chain. -/
def cexEmptyInputParsers : Parsers :=
  { repoParsers with
    parseTimestamp := fun _ => .error .emptyInput
    parseAbsolute := fun _ => .ok baseNow }

/-- C2 counterexample: the claim lists empty input among the specific
failures that any enabled parser propagates immediately and verbatim, but
`isSpecificError` recognizes only invalid-date and ambiguous-date, so an
enabled parser raising the empty-input failure is swallowed and the
success of the next parser is returned instead. -/
theorem parseDate_swallows_parser_emptyInput :
    cexEmptyInputParsers.parseTimestamp (mkCtx "x" DefaultSettings baseNow) = .error .emptyInput ∧
    isParserEnabled (normalizeSettings DefaultSettings baseNow) "timestamp" = true ∧
    ParseDate cexEmptyInputParsers "x" (some DefaultSettings) baseNow = .ok baseNow := by
  decide

/-- C2 (amended): during single-value dispatch the specific failures are
exactly invalid-date and ambiguous-date — raised by any enabled parser
they are returned to the caller immediately and verbatim, independently of
every later parser; any other failure, including a parser-raised
empty-input error, is generic: it is swallowed and dispatch continues with
the remaining parsers; and an input whose components form a
calendar-impossible date yields the invalid-date failure and never the
invalid-format failure.  (The empty-input failure itself is raised by the
dispatcher before any parser runs.) -/
theorem parseDate_specific_error_propagation :
    (∀ (ps psOther : Parsers) (input : String) (opts : Settings) (now : DateTime)
      (pre suf : List String) (name : String) (e : ParseError),
      input ≠ "" →
      parserOrder = pre ++ name :: suf →
      (∀ n ∈ pre, isParserEnabled (normalizeSettings opts now) n = true →
        isGenericFailure (runNamed ps n (mkCtx input opts now)) = true) →
      isParserEnabled (normalizeSettings opts now) name = true →
      runNamed ps name (mkCtx input opts now) = .error e →
      isSpecificError e = true →
      ParseDate ps input (some opts) now = .error e ∧
        ((∀ n ∈ pre ++ [name],
          runNamed psOther n (mkCtx input opts now) = runNamed ps n (mkCtx input opts now)) →
          ParseDate psOther input (some opts) now = .error e)) ∧
    (∀ (ps : Parsers) (input : String) (opts : Settings) (now : DateTime)
      (pre suf : List String) (name : String) (e : ParseError),
      input ≠ "" →
      parserOrder = pre ++ name :: suf →
      (∀ n ∈ pre, isParserEnabled (normalizeSettings opts now) n = true →
        isGenericFailure (runNamed ps n (mkCtx input opts now)) = true) →
      isParserEnabled (normalizeSettings opts now) name = true →
      runNamed ps name (mkCtx input opts now) = .error e →
      isSpecificError e = false →
      ∃ errs2, ParseDate ps input (some opts) now = dispatch ps (mkCtx input opts now) suf errs2) ∧
    ParseDate repoParsers "2024-02-30" (some DefaultSettings) baseNow
      = .error (.invalidDate "2024-02-30") ∧
    ParseDate repoParsers "2024-13-01" (some DefaultSettings) baseNow
      = .error (.invalidDate "2024-13-01") ∧
    ParseDate repoParsers "2023-02-29" (some DefaultSettings) baseNow
      = .error (.invalidDate "2023-02-29") := by
  refine ⟨?_, ?_, by decide, by decide, by decide⟩
  · intro ps psOther input opts now pre suf name e hne horder hpre hen herr hspec
    constructor
    · rw [parseDate_eq_dispatch ps input opts now hne, horder]
      exact dispatch_error_after_generic_skips ps (mkCtx input opts now) e name suf pre [] hpre hen herr hspec
    · intro hagree
      rw [parseDate_eq_dispatch psOther input opts now hne, horder]
      refine dispatch_error_after_generic_skips psOther (mkCtx input opts now) e name suf pre [] ?_ hen ?_ hspec
      · intro n hn henn
        rw [hagree n (List.mem_append_left _ hn)]
        exact hpre n hn henn
      · rw [hagree name (List.mem_append_right _ (List.mem_singleton.mpr rfl))]
        exact herr
  · intro ps input opts now pre suf name e hne horder hpre hen herr hspec
    rw [parseDate_eq_dispatch ps input opts now hne, horder]
    obtain ⟨errs2, hskip⟩ :=
      dispatch_skip_generic_names ps (mkCtx input opts now) pre (name :: suf) [] hpre
    refine ⟨errs2 ++ [e], ?_⟩
    rw [hskip]
    have hen2 : isParserEnabled (mkCtx input opts now).settings name = true := hen
    simp [dispatch, hen2, herr, hspec]

/-- Witness for the amended C2: the invalid-date failure of `2024-02-30`
propagates through the dispatch chain verbatim, and a generic timestamp
failure advances dispatch to the remaining parsers. -/
theorem parseDate_specific_error_propagation_witness :
    ParseDate repoParsers "2024-02-30" (some DefaultSettings) baseNow
      = .error (.invalidDate "2024-02-30") ∧
    (∃ errs2, ParseDate repoParsers "hello world" (some DefaultSettings) baseNow
      = dispatch repoParsers (mkCtx "hello world" DefaultSettings baseNow)
          ["absolute", "relative", "time", "incomplete", "ordinal", "week"] errs2) :=
  ⟨(parseDate_specific_error_propagation.1 repoParsers repoParsers "2024-02-30" DefaultSettings
      baseNow ["timestamp"] ["relative", "time", "incomplete", "ordinal", "week"] "absolute"
      (.invalidDate "2024-02-30") (by decide) (by decide) (by decide) (by decide) (by decide)
      (by decide)).1,
   parseDate_specific_error_propagation.2.1 repoParsers "hello world" DefaultSettings baseNow
     [] ["absolute", "relative", "time", "incomplete", "ordinal", "week"] "timestamp"
     (.parseFailure "hello world") (by decide) (by decide) (by decide) (by decide) (by decide)
     (by decide)⟩

/-! ## Claim C6 -/

/-- C6: for every settings value (including the nil fallback), `ParseDate`
and `ExtractDates` return the empty-input failure on the empty string
before any strategy parser or candidate generator can influence the
result; on non-empty input where every enabled parser fails generically,
`ParseDate` returns the invalid-format failure; and `ExtractDates`
succeeds on every non-empty input — per-offset failures are never raised
to the caller. -/
theorem parseDate_extractDates_failure_modes :
    (∀ (ps : Parsers) (opts : Option Settings) (now : DateTime),
      ParseDate ps "" opts now = .error .emptyInput) ∧
    (∀ (gen : ParserContext → List ParsedDate) (opts : Option Settings) (now : DateTime),
      ExtractDates gen "" opts now = .error .emptyInput) ∧
    (∀ (ps : Parsers) (input : String) (opts : Settings) (now : DateTime),
      input ≠ "" →
      (∀ n ∈ parserOrder, isParserEnabled (normalizeSettings opts now) n = true →
        isGenericFailure (runNamed ps n (mkCtx input opts now)) = true) →
      ParseDate ps input (some opts) now = .error (.invalidFormat input)) ∧
    (∀ (gen : ParserContext → List ParsedDate) (text : String) (opts : Option Settings)
      (now : DateTime),
      text ≠ "" → ∃ l, ExtractDates gen text opts now = .ok l) := by
  refine ⟨fun ps opts now => rfl, fun gen opts now => rfl, ?_, ?_⟩
  · intro ps input opts now hne hall
    rw [parseDate_eq_dispatch ps input opts now hne]
    exact dispatch_invalidFormat ps (mkCtx input opts now) parserOrder [] hall
  · intro gen text opts now hne
    simp only [ExtractDates, extractAllDates, if_neg hne]
    exact ⟨_, rfl⟩

/-- Witness for C6: concrete empty-input failures, a concrete
invalid-format outcome on `hello world`, and a concrete successful
extraction on non-empty text. -/
theorem parseDate_extractDates_failure_modes_witness :
    ParseDate repoParsers "" none baseNow = .error .emptyInput ∧
    ExtractDates (fun _ => []) "" none baseNow = .error .emptyInput ∧
    ParseDate repoParsers "hello world" (some DefaultSettings) baseNow
      = .error (.invalidFormat "hello world") ∧
    (∃ l, ExtractDates (fun _ => []) "hello world" (some DefaultSettings) baseNow = .ok l) :=
  ⟨parseDate_extractDates_failure_modes.1 repoParsers none baseNow,
   parseDate_extractDates_failure_modes.2.1 (fun _ => []) none baseNow,
   parseDate_extractDates_failure_modes.2.2.1 repoParsers "hello world" DefaultSettings baseNow
     (by decide) (by decide),
   parseDate_extractDates_failure_modes.2.2.2 (fun _ => []) "hello world" (some DefaultSettings)
     baseNow (by decide)⟩

/-! ## Normalization characterization -/

/-- Field-by-field characterization of `normalizeSettings`: each unset
optional field receives its documented default, every supplied field is
kept, and `Strict` is copied unconditionally. -/
theorem normalizeSettings_eq (opts : Settings) (now : DateTime) :
    normalizeSettings opts now =
      { DateOrder := if opts.DateOrder = "" then "MDY" else opts.DateOrder
        Languages := if opts.Languages = [] then ["en"] else opts.Languages
        RelativeBase := some (opts.RelativeBase.getD now)
        EnableParsers := if opts.EnableParsers = [] then
          ["timestamp", "relative", "absolute", "timezone", "time", "incomplete", "ordinal", "week"]
          else opts.EnableParsers
        Strict := opts.Strict
        PreferredTimezone := some (opts.PreferredTimezone.getD "UTC")
        PreferDatesFrom := if opts.PreferDatesFrom = "" then "future" else opts.PreferDatesFrom } := by
  unfold normalizeSettings
  cases hro : opts.RelativeBase <;> cases hptz : opts.PreferredTimezone <;>
    by_cases h1 : opts.DateOrder = "" <;> by_cases h2 : opts.Languages = [] <;>
    by_cases h4 : opts.EnableParsers = [] <;> by_cases h6 : opts.PreferDatesFrom = "" <;>
    simp [h1, h2, h4, h6, hro, hptz, List.length_eq_zero]

/-! ## Claim C7 -/

/-- C7: `normalizeSettings` maps each unset optional field to its
documented fallback default — `DateOrder` empty to `MDY`, empty
`Languages` to `[en]`, zero `RelativeBase` to the ambient clock reading
(`time.Now()`), empty `EnableParsers` to the full parser list, nil
`PreferredTimezone` to UTC, empty `PreferDatesFrom` to `future` — and
leaves every explicitly supplied field (and `Strict`) unchanged.  The
resulting snapshot is a pure value in this embedding, so nothing can
modify it for the remainder of the call. -/
theorem normalizeSettings_defaults (opts : Settings) (now : DateTime) :
    ((normalizeSettings opts now).DateOrder
        = (if opts.DateOrder = "" then "MDY" else opts.DateOrder)) ∧
    ((normalizeSettings opts now).Languages
        = (if opts.Languages = [] then ["en"] else opts.Languages)) ∧
    ((normalizeSettings opts now).RelativeBase
        = some (opts.RelativeBase.getD now)) ∧
    ((normalizeSettings opts now).EnableParsers
        = (if opts.EnableParsers = [] then
            ["timestamp", "relative", "absolute", "timezone", "time", "incomplete", "ordinal", "week"]
          else opts.EnableParsers)) ∧
    ((normalizeSettings opts now).Strict = opts.Strict) ∧
    ((normalizeSettings opts now).PreferredTimezone
        = some (opts.PreferredTimezone.getD "UTC")) ∧
    ((normalizeSettings opts now).PreferDatesFrom
        = (if opts.PreferDatesFrom = "" then "future" else opts.PreferDatesFrom)) := by
  rw [normalizeSettings_eq]
  exact ⟨rfl, rfl, rfl, rfl, rfl, rfl, rfl⟩

/-! ## Claim C5 -/

/-- C5: with `Strict` set and `DateOrder` left unset, `01/02/2024` (both
leading components at most 12, so both role assignments are
calendar-valid) raises the ambiguous-date failure; with `DateOrder` set to
`MDY` the same input resolves to January 2, 2024 at midnight. -/
theorem parseDate_strict_ambiguity :
    ParseDate repoParsers "01/02/2024"
      (some { DateOrder := "", Languages := ["en"], RelativeBase := some baseNow,
              EnableParsers := [], Strict := true, PreferredTimezone := some "UTC",
              PreferDatesFrom := "future" }) baseNow
      = .error (.ambiguousDate "01/02/2024") ∧
    ParseDate repoParsers "01/02/2024"
      (some { DateOrder := "MDY", Languages := ["en"], RelativeBase := some baseNow,
              EnableParsers := [], Strict := true, PreferredTimezone := some "UTC",
              PreferDatesFrom := "future" }) baseNow
      = .ok { year := 2024, month := 1, day := 2, hour := 0, minute := 0, second := 0 } := by
  decide

/-! ## Claim C9 (corrected) -/

/-- C9 counterexample: with `RelativeBase` left at its zero value,
`normalizeSettings` consults the ambient clock (`time.Now()`), so two
invocations of `ParseDate` with the same input string and the same
settings value can return different outcomes. -/
theorem parseDate_not_pure_with_zero_base :
    ParseDate repoParsers "yesterday" (some DefaultSettings) baseNow
      ≠ ParseDate repoParsers "yesterday" (some DefaultSettings)
          { baseNow with day := 16 } := by
  decide

/-- The ambient clock reading is consumed only to fill a zero
`RelativeBase`: normalization is clock-independent once the base is set. -/
theorem normalizeSettings_clock_irrelevant (opts : Settings) (b : DateTime)
    (now1 now2 : DateTime) (hbase : opts.RelativeBase = some b) :
    normalizeSettings opts now1 = normalizeSettings opts now2 := by
  rw [normalizeSettings_eq, normalizeSettings_eq, hbase]
  rfl

/-- C9 (amended): every invocation of `ParseDate` and `ExtractDates` is a
pure function of the input text, the settings value, and the ambient clock
reading consumed during normalization; no state persists between calls.
Whenever `RelativeBase` is explicitly set the clock is never consulted, so
two invocations with the same input string and the same settings value
return the same outcome. -/
theorem parseDate_extractDates_deterministic
    (ps : Parsers) (gen : ParserContext → List ParsedDate) (input : String)
    (opts : Settings) (b : DateTime) (now1 now2 : DateTime)
    (hbase : opts.RelativeBase = some b) :
    ParseDate ps input (some opts) now1 = ParseDate ps input (some opts) now2 ∧
    ExtractDates gen input (some opts) now1 = ExtractDates gen input (some opts) now2 := by
  have hnorm := normalizeSettings_clock_irrelevant opts b now1 now2 hbase
  by_cases hne : input = ""
  · subst hne
    exact ⟨rfl, rfl⟩
  · constructor
    · rw [parseDate_eq_dispatch ps input opts now1 hne,
        parseDate_eq_dispatch ps input opts now2 hne]
      unfold mkCtx
      rw [hnorm]
    · simp only [ExtractDates, if_neg hne]
      rw [show Option.getD (some opts) DefaultSettings = opts from rfl, hnorm]

/-- Witness for the amended C9: with an explicitly set base instant, the
same input and settings give the same outcome under two different clock
readings. -/
theorem parseDate_extractDates_deterministic_witness :
    ParseDate repoParsers "yesterday"
      (some { DefaultSettings with RelativeBase := some baseNow }) baseNow
      = ParseDate repoParsers "yesterday"
          (some { DefaultSettings with RelativeBase := some baseNow }) { baseNow with day := 16 } ∧
    ExtractDates (fun _ => []) "yesterday"
      (some { DefaultSettings with RelativeBase := some baseNow }) baseNow
      = ExtractDates (fun _ => []) "yesterday"
          (some { DefaultSettings with RelativeBase := some baseNow }) { baseNow with day := 16 } :=
  parseDate_extractDates_deterministic repoParsers (fun _ => []) "yesterday"
    { DefaultSettings with RelativeBase := some baseNow } baseNow baseNow
    { baseNow with day := 16 } rfl

/-! ## Claim C10 (corrected) -/

theorem contains_filter_not_timezone (l : List String) (n : String) (hn : n ≠ "timezone") :
    (l.filter (fun s => s != "timezone")).contains n = l.contains n := by
  induction l with
  | nil => rfl
  | cons a l ih =>
    by_cases ha : a = "timezone"
    · subst ha
      have hb : (n == "timezone") = false := by simp [hn]
      simp [List.filter_cons, List.contains_cons, hb, ih, hn]
    · have hb : (a != "timezone") = true := by simp [ha]
      simp [List.filter_cons, hb, List.contains_cons, ih, hn]

theorem contains_cons_timezone (l : List String) (n : String) (hn : n ≠ "timezone") :
    ("timezone" :: l).contains n = l.contains n := by
  simp [List.contains_cons, hn]

theorem parseTimestamp_congr (c1 c2 : ParserContext) (hinput : c1.input = c2.input) :
    parseTimestamp c1 = parseTimestamp c2 := by
  unfold parseTimestamp
  rw [hinput]

theorem parseAbsolute_congr (c1 c2 : ParserContext) (hinput : c1.input = c2.input)
    (hauto : c1.autoDetectDateOrder = c2.autoDetectDateOrder)
    (hdo : c1.settings.DateOrder = c2.settings.DateOrder)
    (hstrict : c1.settings.Strict = c2.settings.Strict) :
    parseAbsolute c1 = parseAbsolute c2 := by
  unfold parseAbsolute
  rw [hinput, hauto, hdo, hstrict]

theorem parseRelative_congr (c1 c2 : ParserContext) (hinput : c1.input = c2.input)
    (hlang : c1.languages = c2.languages)
    (hbase : c1.settings.RelativeBase = c2.settings.RelativeBase) :
    parseRelative c1 = parseRelative c2 := by
  unfold parseRelative
  rw [hinput, hlang, hbase]

theorem tryParseTime_congr (c1 c2 : ParserContext) (hinput : c1.input = c2.input)
    (hbase : c1.settings.RelativeBase = c2.settings.RelativeBase) :
    tryParseTime c1 = tryParseTime c2 := by
  unfold tryParseTime
  rw [hinput, hbase]

theorem tryParseIncompleteDate_congr (c1 c2 : ParserContext) (hinput : c1.input = c2.input) :
    tryParseIncompleteDate c1 = tryParseIncompleteDate c2 := by
  unfold tryParseIncompleteDate
  rw [hinput]

theorem tryParseOrdinalDate_congr (c1 c2 : ParserContext) (hinput : c1.input = c2.input)
    (hbase : c1.settings.RelativeBase = c2.settings.RelativeBase) :
    tryParseOrdinalDate c1 = tryParseOrdinalDate c2 := by
  unfold tryParseOrdinalDate
  rw [hinput, hbase]

theorem tryParseWeekNumber_congr (c1 c2 : ParserContext) (hinput : c1.input = c2.input) :
    tryParseWeekNumber c1 = tryParseWeekNumber c2 := by
  unfold tryParseWeekNumber
  rw [hinput]

/-- The spec-modelled parsers never read `EnableParsers` (or any other
settings field beyond order, strictness and base): contexts agreeing on
those fields produce identical parser results. -/
theorem runNamed_repo_congr (c1 c2 : ParserContext) (n : String)
    (hinput : c1.input = c2.input)
    (hauto : c1.autoDetectDateOrder = c2.autoDetectDateOrder)
    (hlang : c1.languages = c2.languages)
    (hdo : c1.settings.DateOrder = c2.settings.DateOrder)
    (hstrict : c1.settings.Strict = c2.settings.Strict)
    (hbase : c1.settings.RelativeBase = c2.settings.RelativeBase) :
    runNamed repoParsers n c1 = runNamed repoParsers n c2 := by
  unfold runNamed
  split_ifs
  · exact parseTimestamp_congr c1 c2 hinput
  · exact parseAbsolute_congr c1 c2 hinput hauto hdo hstrict
  · exact parseRelative_congr c1 c2 hinput hlang hbase
  · exact tryParseTime_congr c1 c2 hinput hbase
  · exact tryParseIncompleteDate_congr c1 c2 hinput
  · exact tryParseOrdinalDate_congr c1 c2 hinput hbase
  · exact tryParseWeekNumber_congr c1 c2 hinput

/-- The dispatch chain is determined by the input text, the
enabled-parser flags and the parser results. -/
theorem dispatch_congr (ps : Parsers) (c1 c2 : ParserContext) (names : List String)
    (hinput : c1.input = c2.input)
    (hflag : ∀ n ∈ names, isParserEnabled c1.settings n = isParserEnabled c2.settings n)
    (hrun : ∀ n ∈ names, runNamed ps n c1 = runNamed ps n c2) :
    ∀ errs, dispatch ps c1 names errs = dispatch ps c2 names errs := by
  induction names with
  | nil =>
    intro errs
    by_cases h : errs.length > 0 <;> simp [dispatch, h, hinput]
  | cons n names ih =>
    intro errs
    have hf := hflag n (List.mem_cons_self n names)
    have hr := hrun n (List.mem_cons_self n names)
    have ihn := ih (fun m hm => hflag m (List.mem_cons_of_mem _ hm))
      (fun m hm => hrun m (List.mem_cons_of_mem _ hm))
    simp only [dispatch]
    rw [← hf, ← hr]
    by_cases h : isParserEnabled c1.settings n = true
    · simp only [h, if_true]
      cases hrn : runNamed ps n c1 with
      | ok r => rfl
      | error e =>
        by_cases hs : isSpecificError e = true
        · simp [hs]
        · simp only [Bool.not_eq_true] at hs
          simp [hs, ihn (errs ++ [e])]
    · simp only [Bool.not_eq_true] at h
      simp [h, ihn errs]

/-- C10 counterexample: `EnableParsers` equal to exactly `[timezone]`
yields the invalid-format failure, but removing `timezone` empties the
list, which normalization re-expands to the full default parser set, so
the removal changes the result of `ParseDate` — contradicting the claim
that removing `timezone` never changes the result. -/
theorem enableParsers_timezone_removal_changes_result :
    List.filter (fun s => s != "timezone") ["timezone"] = ([] : List String) ∧
    ParseDate repoParsers "2024-12-31"
      (some { DefaultSettings with EnableParsers := ["timezone"] }) baseNow
      ≠ ParseDate repoParsers "2024-12-31"
          (some { DefaultSettings with EnableParsers := [] }) baseNow := by
  decide

/-- C10 (amended): no dispatch block of `ParseDate` is gated on the
`timezone` identifier in `EnableParsers`.  As long as the `EnableParsers`
list stays non-empty both before and after the change, removing or adding
`timezone` never changes the result; and a settings whose `EnableParsers`
is exactly `[timezone]` makes `ParseDate` return the invalid-format
failure for every non-empty input and every parser bundle, so no strategy
parser can influence the result.  (Removing `timezone` from exactly
`[timezone]` instead empties the list, which normalization re-expands to
the full default set.) -/
theorem timezone_parser_never_dispatched :
    (∀ (input : String) (opts : Settings) (now : DateTime),
      opts.EnableParsers ≠ [] →
      opts.EnableParsers.filter (fun s => s != "timezone") ≠ [] →
      ParseDate repoParsers input
        (some { opts with
          EnableParsers := opts.EnableParsers.filter (fun s => s != "timezone") }) now
        = ParseDate repoParsers input (some opts) now) ∧
    (∀ (input : String) (opts : Settings) (now : DateTime),
      opts.EnableParsers ≠ [] →
      ParseDate repoParsers input
        (some { opts with EnableParsers := "timezone" :: opts.EnableParsers }) now
        = ParseDate repoParsers input (some opts) now) ∧
    (∀ (ps : Parsers) (input : String) (opts : Settings) (now : DateTime),
      input ≠ "" →
      opts.EnableParsers = ["timezone"] →
      ParseDate ps input (some opts) now = .error (.invalidFormat input)) := by
  have hntz : ∀ n ∈ parserOrder, n ≠ "timezone" := by decide
  refine ⟨?_, ?_, ?_⟩
  · intro input opts now h1 h2
    by_cases hne : input = ""
    · subst hne; rfl
    · rw [parseDate_eq_dispatch _ _ _ _ hne, parseDate_eq_dispatch _ _ _ _ hne]
      have e1 : normalizeSettings
          { opts with EnableParsers := opts.EnableParsers.filter (fun s => s != "timezone") } now
          = { normalizeSettings opts now with
              EnableParsers := opts.EnableParsers.filter (fun s => s != "timezone") } := by
        rw [normalizeSettings_eq, normalizeSettings_eq]
        simp [h2]
      have eEP : (normalizeSettings opts now).EnableParsers = opts.EnableParsers := by
        rw [normalizeSettings_eq]
        simp [h1]
      refine dispatch_congr repoParsers
        (mkCtx input
          { opts with EnableParsers := opts.EnableParsers.filter (fun s => s != "timezone") } now)
        (mkCtx input opts now) parserOrder rfl ?_ ?_ []
      · intro n hn
        show (normalizeSettings _ now).EnableParsers.contains n
          = (normalizeSettings opts now).EnableParsers.contains n
        rw [e1, eEP]
        exact contains_filter_not_timezone opts.EnableParsers n (hntz n hn)
      · intro n _
        refine runNamed_repo_congr
          (mkCtx input
            { opts with EnableParsers := opts.EnableParsers.filter (fun s => s != "timezone") } now)
          (mkCtx input opts now) n rfl rfl ?_ ?_ ?_ ?_
        · show (normalizeSettings _ now).Languages = (normalizeSettings opts now).Languages
          rw [e1]
        · show (normalizeSettings _ now).DateOrder = (normalizeSettings opts now).DateOrder
          rw [e1]
        · show (normalizeSettings _ now).Strict = (normalizeSettings opts now).Strict
          rw [e1]
        · show (normalizeSettings _ now).RelativeBase = (normalizeSettings opts now).RelativeBase
          rw [e1]
  · intro input opts now h1
    by_cases hne : input = ""
    · subst hne; rfl
    · rw [parseDate_eq_dispatch _ _ _ _ hne, parseDate_eq_dispatch _ _ _ _ hne]
      have e1 : normalizeSettings
          { opts with EnableParsers := "timezone" :: opts.EnableParsers } now
          = { normalizeSettings opts now with
              EnableParsers := "timezone" :: opts.EnableParsers } := by
        rw [normalizeSettings_eq, normalizeSettings_eq]
        simp
      have eEP : (normalizeSettings opts now).EnableParsers = opts.EnableParsers := by
        rw [normalizeSettings_eq]
        simp [h1]
      refine dispatch_congr repoParsers
        (mkCtx input { opts with EnableParsers := "timezone" :: opts.EnableParsers } now)
        (mkCtx input opts now) parserOrder rfl ?_ ?_ []
      · intro n hn
        show (normalizeSettings _ now).EnableParsers.contains n
          = (normalizeSettings opts now).EnableParsers.contains n
        rw [e1, eEP]
        exact contains_cons_timezone opts.EnableParsers n (hntz n hn)
      · intro n _
        refine runNamed_repo_congr
          (mkCtx input { opts with EnableParsers := "timezone" :: opts.EnableParsers } now)
          (mkCtx input opts now) n rfl rfl ?_ ?_ ?_ ?_
        · show (normalizeSettings _ now).Languages = (normalizeSettings opts now).Languages
          rw [e1]
        · show (normalizeSettings _ now).DateOrder = (normalizeSettings opts now).DateOrder
          rw [e1]
        · show (normalizeSettings _ now).Strict = (normalizeSettings opts now).Strict
          rw [e1]
        · show (normalizeSettings _ now).RelativeBase = (normalizeSettings opts now).RelativeBase
          rw [e1]
  · intro ps input opts now hne hEP
    rw [parseDate_eq_dispatch _ _ _ _ hne]
    have hEPn : (mkCtx input opts now).settings.EnableParsers = ["timezone"] := by
      show (normalizeSettings opts now).EnableParsers = _
      rw [normalizeSettings_eq]
      simp [hEP]
    have hall : ∀ n ∈ parserOrder,
        isParserEnabled (mkCtx input opts now).settings n = true →
        isGenericFailure (runNamed ps n (mkCtx input opts now)) = true := by
      intro n hn hen
      exfalso
      rw [isParserEnabled, hEPn] at hen
      have hzn : n = "timezone" := by
        simpa [List.contains_cons] using hen
      exact hntz n hn hzn
    exact dispatch_invalidFormat ps (mkCtx input opts now) parserOrder [] hall

/-- Witness for the amended C10: removing `timezone` from a two-element
list leaves the result unchanged, and `EnableParsers` exactly
`[timezone]` forces the invalid-format failure on a non-empty input. -/
theorem timezone_parser_never_dispatched_witness :
    ParseDate repoParsers "2024-12-31"
      (some { DefaultSettings with
        EnableParsers := ["absolute", "timezone"].filter (fun s => s != "timezone") }) baseNow
      = ParseDate repoParsers "2024-12-31"
          (some { DefaultSettings with EnableParsers := ["absolute", "timezone"] }) baseNow ∧
    ParseDate repoParsers "2024-12-31"
      (some { DefaultSettings with EnableParsers := ["timezone"] }) baseNow
      = .error (.invalidFormat "2024-12-31") :=
  ⟨timezone_parser_never_dispatched.1 "2024-12-31"
      { DefaultSettings with EnableParsers := ["absolute", "timezone"] } baseNow
      (by decide) (by decide),
   timezone_parser_never_dispatched.2.2 repoParsers "2024-12-31"
      { DefaultSettings with EnableParsers := ["timezone"] } baseNow
      (by decide) rfl⟩

/-! ## Claim C3 -/

theorem spanDisjoint_symm (a b : ParsedDate) (h : spanDisjoint a b) : spanDisjoint b a := by
  unfold spanDisjoint at h ⊢
  omega

theorem greedyAccept_pairwise (l : List ParsedDate) :
    ∀ acc, acc.Pairwise spanDisjoint → (greedyAccept l acc).Pairwise spanDisjoint := by
  induction l with
  | nil => exact fun acc h => h
  | cons c rest ih =>
    intro acc h
    by_cases hov : acc.any (fun a => overlapsB a c) = true
    · simpa [greedyAccept, hov] using ih acc h
    · have hall : ∀ a ∈ acc, overlapsB a c = false := by
        intro a ha
        by_contra hcon
        exact hov (List.any_eq_true.mpr ⟨a, ha, by
          cases hx : overlapsB a c
          · exact absurd hx hcon
          · rfl⟩)
      have hdisj : ∀ a ∈ acc, spanDisjoint a c := by
        intro a ha
        have hfa := hall a ha
        unfold overlapsB at hfa
        unfold spanDisjoint
        simp only [decide_eq_false_iff_not, not_and, Nat.not_lt] at hfa
        omega
      have hpair : (acc ++ [c]).Pairwise spanDisjoint := by
        rw [List.pairwise_append]
        refine ⟨h, List.pairwise_singleton _ _, ?_⟩
        intro a ha b hb
        rw [List.mem_singleton] at hb
        subst hb
        exact hdisj a ha
      simpa [greedyAccept, hov] using ih (acc ++ [c]) hpair

/-- The emitted extraction sequence is pairwise span-disjoint and sorted
by ascending start offset. -/
theorem resolveOverlaps_invariant (cands : List ParsedDate) :
    (resolveOverlaps cands).Pairwise spanDisjoint ∧
    (resolveOverlaps cands).Pairwise startLE := by
  unfold resolveOverlaps
  constructor
  · have hg := greedyAccept_pairwise (List.insertionSort candBefore cands) [] List.Pairwise.nil
    have hp := List.perm_insertionSort startLE
      (greedyAccept (List.insertionSort candBefore cands) [])
    exact (hp.pairwise_iff fun hxy => spanDisjoint_symm _ _ hxy).mpr hg
  · exact List.sorted_insertionSort startLE _

/-- C3: for every configuration (and candidate generator), the sequence of
matches returned by `ExtractDates` is strictly non-overlapping — for every
pair of distinct matches the half-open spans do not intersect — and is
sorted by ascending start offset. -/
theorem extractDates_nonoverlap_sorted
    (gen : ParserContext → List ParsedDate) (text : String) (opts : Option Settings)
    (now : DateTime) (l : List ParsedDate)
    (h : ExtractDates gen text opts now = .ok l) :
    l.Pairwise spanDisjoint ∧ l.Pairwise startLE := by
  by_cases hne : text = ""
  · rw [hne] at h
    exact absurd h (by simp [ExtractDates])
  · simp only [ExtractDates, if_neg hne, extractAllDates, Except.ok.injEq] at h
    rw [← h]
    exact resolveOverlaps_invariant _

/-- Concrete extraction candidates exercising overlap resolution: the
second candidate overlaps the first and is discarded. -/
def wCand1 : ParsedDate :=
  { Date := baseNow, Position := 0, Length := 5, MatchedText := "aaaaa", Confidence := 1 }

def wCand2 : ParsedDate :=
  { Date := baseNow, Position := 3, Length := 4, MatchedText := "bbbb", Confidence := 1 }

def wCand3 : ParsedDate :=
  { Date := baseNow, Position := 6, Length := 2, MatchedText := "cc", Confidence := 1 }

/-- Witness for C3 on a concrete overlapping candidate set. -/
theorem extractDates_nonoverlap_sorted_witness :
    List.Pairwise spanDisjoint [wCand1, wCand3] ∧ List.Pairwise startLE [wCand1, wCand3] :=
  extractDates_nonoverlap_sorted (fun _ => [wCand1, wCand2, wCand3]) "abc" none baseNow
    [wCand1, wCand3] (by decide)

/-! ## Claim C4 (corrected) -/

/-- The two ASCII digits of a number below 100. -/
def twoDigitChars (y : Nat) : List Char :=
  [Char.ofNat (48 + y / 10), Char.ofNat (48 + y % 10)]

/-- C4 counterexample: under `MDY` the input `01/02/30` resolves its year
component through the documented 00-69 window to 2030 — not to 1930 as
the worked example in the claim asserts. -/
theorem twoDigitYear_worked_example_false :
    ParseDate repoParsers "01/02/30" (some DefaultSettings) baseNow
      = .ok { year := 2030, month := 1, day := 2, hour := 0, minute := 0, second := 0 } ∧
    ParseDate repoParsers "01/02/30" (some DefaultSettings) baseNow
      ≠ .ok { year := 1930, month := 1, day := 2, hour := 0, minute := 0, second := 0 } := by
  decide

/-- C4 (amended): for the numeric format with a two-digit year field, year
values 00 through 69 resolve to calendar years 2000 through 2069 and
values 70 through 99 resolve to 1970 through 1999; in particular
`01/02/30` under `MDY` resolves to January 2, 2030, and `01/02/05` to
January 2, 2005. -/
theorem parseDate_two_digit_year :
    ∀ y : Nat, y < 100 →
      ParseDate repoParsers (String.mk (['0', '1', '/', '0', '2', '/'] ++ twoDigitChars y))
        (some DefaultSettings) baseNow
        = .ok { year := if y ≤ 69 then 2000 + y else 1900 + y,
                month := 1, day := 2, hour := 0, minute := 0, second := 0 } := by
  decide

/-- Witness for the amended C4 at the two worked examples of the spec. -/
theorem parseDate_two_digit_year_witness :
    String.mk (['0', '1', '/', '0', '2', '/'] ++ twoDigitChars 30) = "01/02/30" ∧
    ParseDate repoParsers (String.mk (['0', '1', '/', '0', '2', '/'] ++ twoDigitChars 30))
      (some DefaultSettings) baseNow
      = .ok { year := 2030, month := 1, day := 2, hour := 0, minute := 0, second := 0 } ∧
    String.mk (['0', '1', '/', '0', '2', '/'] ++ twoDigitChars 5) = "01/02/05" ∧
    ParseDate repoParsers (String.mk (['0', '1', '/', '0', '2', '/'] ++ twoDigitChars 5))
      (some DefaultSettings) baseNow
      = .ok { year := 2005, month := 1, day := 2, hour := 0, minute := 0, second := 0 } :=
  ⟨by decide,
   by simpa using parseDate_two_digit_year 30 (by decide),
   by decide,
   by simpa using parseDate_two_digit_year 5 (by decide)⟩

/-! ## Claim C8 -/

/-- C8: for every valid ISO-8601 calendar string of the shape `YYYY-MM-DD`
(four digits, dash, two digits, dash, two digits, with calendar-valid
components) and every configuration that enables the absolute parser,
single-value parsing returns exactly that calendar date at midnight.  The
conclusion never consults `DateOrder`, and the settings are arbitrary, so
the result is identical for `YMD`, `MDY` and `DMY` (and any other order
preference): explicit separators disambiguate. -/
theorem parseDate_iso_order_independent
    (a b c d e f g h : Char)
    (ha : isDigitChar a = true) (hb : isDigitChar b = true) (hc : isDigitChar c = true)
    (hd : isDigitChar d = true) (he : isDigitChar e = true) (hf : isDigitChar f = true)
    (hg : isDigitChar g = true) (hh : isDigitChar h = true)
    (opts : Settings) (now : DateTime)
    (hvalid : validDate (digitsToNat [a, b, c, d]) (digitsToNat [e, f]) (digitsToNat [g, h]) = true)
    (henabled : isParserEnabled (normalizeSettings opts now) "absolute" = true) :
    ParseDate repoParsers (String.mk [a, b, c, d, '-', e, f, '-', g, h]) (some opts) now
      = .ok { year := digitsToNat [a, b, c, d], month := digitsToNat [e, f],
              day := digitsToNat [g, h], hour := 0, minute := 0, second := 0 } := by
  have hne : String.mk [a, b, c, d, '-', e, f, '-', g, h] ≠ "" := by
    intro hcon
    exact absurd (congrArg String.data hcon) (by simp)
  rw [parseDate_eq_dispatch _ _ _ _ hne]
  have horder : parserOrder
      = ["timestamp"] ++ "absolute" :: ["relative", "time", "incomplete", "ordinal", "week"] := rfl
  rw [horder]
  apply dispatch_ok_after_generic_skips
  · intro n hn _
    rw [List.mem_singleton] at hn
    subst hn
    have hcond : ¬((([a, b, c, d, '-', e, f, '-', g, h] : List Char) ≠ []) ∧
        ([a, b, c, d, '-', e, f, '-', g, h].all isDigitChar = true) ∧
        (([a, b, c, d, '-', e, f, '-', g, h] : List Char).length = 10 ∨
          ([a, b, c, d, '-', e, f, '-', g, h] : List Char).length = 13)) := by
      intro hcon
      rcases hcon with ⟨-, hall, -⟩
      simp [List.all_cons, (show isDigitChar '-' = false from by decide)] at hall
    have key : parseTimestampCore (String.mk [a, b, c, d, '-', e, f, '-', g, h])
        [a, b, c, d, '-', e, f, '-', g, h]
        = .error (.parseFailure (String.mk [a, b, c, d, '-', e, f, '-', g, h])) := by
      unfold parseTimestampCore
      exact if_neg hcond
    have e0 : runNamed repoParsers "timestamp"
        (mkCtx (String.mk [a, b, c, d, '-', e, f, '-', g, h]) opts now)
        = parseTimestampCore (String.mk [a, b, c, d, '-', e, f, '-', g, h])
            [a, b, c, d, '-', e, f, '-', g, h] := rfl
    rw [e0, key]
    rfl
  · exact henabled
  · have hiso : isoShape [a, b, c, d, '-', e, f, '-', g, h]
        = some (digitsToNat [a, b, c, d], digitsToNat [e, f], digitsToNat [g, h]) := by
      simp [isoShape, ha, hb, hc, hd, he, hf, hg, hh]
    have key : ∀ (ad : Bool) (dord : String) (st : Bool),
        parseAbsoluteCore (String.mk [a, b, c, d, '-', e, f, '-', g, h])
          [a, b, c, d, '-', e, f, '-', g, h] ad dord st
          = .ok { year := digitsToNat [a, b, c, d], month := digitsToNat [e, f],
                  day := digitsToNat [g, h], hour := 0, minute := 0, second := 0 } := by
      intro ad dord st
      unfold parseAbsoluteCore
      rw [hiso]
      unfold assembleDate
      exact if_pos hvalid
    have e0 : runNamed repoParsers "absolute"
        (mkCtx (String.mk [a, b, c, d, '-', e, f, '-', g, h]) opts now)
        = parseAbsoluteCore (String.mk [a, b, c, d, '-', e, f, '-', g, h])
            [a, b, c, d, '-', e, f, '-', g, h]
            (decide (opts.DateOrder = ""))
            ((normalizeSettings opts now).DateOrder)
            ((normalizeSettings opts now).Strict) := rfl
    rw [e0]
    exact key _ _ _

/-- Witness for C8 at `2024-12-31` under the DMY order preference. -/
theorem parseDate_iso_order_independent_witness :
    ParseDate repoParsers (String.mk ['2', '0', '2', '4', '-', '1', '2', '-', '3', '1'])
      (some { DefaultSettings with DateOrder := "DMY" }) baseNow
      = .ok { year := 2024, month := 12, day := 31, hour := 0, minute := 0, second := 0 } := by
  have hw := parseDate_iso_order_independent '2' '0' '2' '4' '1' '2' '3' '1'
    (by decide) (by decide) (by decide) (by decide) (by decide) (by decide) (by decide) (by decide)
    { DefaultSettings with DateOrder := "DMY" } baseNow (by decide) (by decide)
  simpa using hw
